import Mathlib

/-!
Shallow embedding of the CrossCracker front-end client
(src/static/js/script.js, latest snapshot) in Lean 4.

The client keeps four mutable globals (gridData, acrossClues, downClues,
cellNumbering) plus the status line, the three button states and the
pauseRequested flag; we gather them into a ClientState record and model
every function of the script as an explicit state transformer.  Network
effects (fetch of /api/initialize and /api/solve_step) are modelled by
passing the outcome of the request as an explicit argument of type
Except String response: a network failure or a non-ok HTTP status both
throw in the script and are both .error cases here, carrying the thrown
message.  JavaScript objects used as string-keyed dictionaries are
association lists with first-match lookup and prepend-on-write, which
reproduces overwrite semantics; JavaScript truthiness tests on numbers,
strings and missing fields are modelled by explicit jsTruthy functions.
-/
/-- One cell of the grid snapshot sent by the server: black flag and the
current character, where the script treats a missing char and the
placeholder star as no letter. -/
structure Cell where
  is_black : Bool
  char : Option Char
deriving Repr, DecidableEq

/-- One clue object of the across or down clue list.  assigned and
confidence are absent (none) until the solver reports them. -/
structure Clue where
  number : Nat
  start : Nat × Nat
  length : Nat
  text : String
  assigned : Option String
  confidence : Option Rat
deriving Repr, DecidableEq

/-- One entry of the assigned_clues payload of a solve_step response. -/
structure AssignedClue where
  number : Nat
  direction : String
  assigned : String
  confidence : Option Rat
deriving Repr, DecidableEq

/-- Body of a successful /api/solve_step response. -/
structure StepResponse where
  grid : List (List Cell)
  assigned_clues : Option (List AssignedClue)
  progress : Option Bool
  message : Option String
  solved : Option Bool
deriving Repr, DecidableEq

/-- Body of a successful /api/initialize response. -/
structure InitResponse where
  grid : List (List Cell)
  across_clues : List Clue
  down_clues : List Clue
deriving Repr, DecidableEq

/-- The client's global mutable state: the four data globals, the
solution-status element (text and CSS class list), the disabled flags of
the three buttons, and the pauseRequested flag. -/
structure ClientState where
  gridData : List (List Cell)
  acrossClues : List Clue
  downClues : List Clue
  cellNumbering : List (String × Nat)
  statusText : String
  statusClasses : List String
  solveStepDisabled : Bool
  solveAllDisabled : Bool
  pauseDisabled : Bool
  pauseRequested : Bool
deriving Repr, DecidableEq

/-- JavaScript truthiness of a possibly-null boolean (null and false are
falsy). -/
def jsTruthy : Option Bool → Bool
  | none => false
  | some b => b

/-- JavaScript truthiness of a possibly-missing number (missing and 0 are
falsy). -/
def jsTruthyNum : Option Nat → Bool
  | none => false
  | some n => n != 0

/-- JavaScript truthiness of a possibly-missing string (missing and the
empty string are falsy). -/
def jsTruthyStr : Option String → Bool
  | none => false
  | some m => m != ""

/-- Lookup in a JavaScript object modelled as an association list:
first match wins. -/
def objGet (m : List (String × Nat)) (k : String) : Option Nat :=
  (m.find? fun p => p.1 == k).map fun p => p.2

/-- Property write on a JavaScript object: the new binding shadows any
older one. -/
def objSet (m : List (String × Nat)) (k : String) (v : Nat) : List (String × Nat) :=
  (k, v) :: m

/-- The template-literal key the script builds from a cell position. -/
def cellKey (r c : Nat) : String :=
  Nat.repr r ++ "-" ++ Nat.repr c

/-- The key of a clue's start cell. -/
def clueKey (cl : Clue) : String :=
  cellKey cl.start.1 cl.start.2

/-- Body of the across-clue pass of createCellNumbering: unconditional
write of the clue number at the start cell. -/
def addAcrossClue (m : List (String × Nat)) (cl : Clue) : List (String × Nat) :=
  objSet m (clueKey cl) cl.number

/-- Body of the down-clue pass of createCellNumbering: write the clue
number only when the key is falsy in the map built so far. -/
def addDownClue (m : List (String × Nat)) (cl : Clue) : List (String × Nat) :=
  if jsTruthyNum (objGet m (clueKey cl)) then m else objSet m (clueKey cl) cl.number

/-- createCellNumbering as a function of the two clue lists: start from
the empty object, fold the across clues, then the down clues. -/
def createCellNumbering (ac dc : List Clue) : List (String × Nat) :=
  dc.foldl addDownClue (ac.foldl addAcrossClue [])

/-- The createCellNumbering call of the script: recompute the global
numbering map from the current clue lists. -/
def createCellNumberingOp (s : ClientState) : ClientState :=
  { s with cellNumbering := createCellNumbering s.acrossClues s.downClues }

/-- The DOM cell div produced by renderGrid: its CSS classes and the
text contents of its number span and of the div itself. -/
structure RenderedCell where
  blackClass : Bool
  filledClass : Bool
  numberText : Option Nat
  letterText : Option Char
deriving Repr, DecidableEq

/-- How renderGrid renders one cell: a black cell gets only the black
class; a white cell gets a number span when its key is truthy in the
numbering map, and its char as text when the char is truthy and not the
placeholder star. -/
def renderCell (numbering : List (String × Nat)) (r c : Nat) (cell : Cell) : RenderedCell :=
  if cell.is_black then
    { blackClass := true, filledClass := false, numberText := none, letterText := none }
  else
    let num := if jsTruthyNum (objGet numbering (cellKey r c)) then objGet numbering (cellKey r c) else none
    let letter :=
      match cell.char with
      | some ch => if ch != '*' then some ch else none
      | none => none
    { blackClass := false, filledClass := letter.isSome, numberText := num, letterText := letter }

/-- renderGrid over the whole grid snapshot, with the row and column
indices supplied by the two nested forEach callbacks. -/
def renderGrid (numbering : List (String × Nat)) (grid : List (List Cell)) : List (List RenderedCell) :=
  grid.enum.map fun ri =>
    ri.2.enum.map fun ci => renderCell numbering ri.1 ci.1 ci.2

/-- Decimal reading of a digit string, used only to invert Nat.repr. -/
def readNatChars (l : List Char) : Nat :=
  l.foldl (fun a c => 10 * a + (c.toNat - 48)) 0

/-- A sample across clue used by concrete witnesses. -/
def clA : Clue :=
  { number := 1, start := (0, 0), length := 3, text := "a", assigned := none, confidence := none }

/-- A sample down clue sharing its start cell with clA. -/
def clD1 : Clue :=
  { number := 1, start := (0, 0), length := 2, text := "d", assigned := none, confidence := none }

/-- A sample down clue with its own start cell. -/
def clD2 : Clue :=
  { number := 2, start := (0, 1), length := 2, text := "d2", assigned := none, confidence := none }

/-- A concrete state with stale numbering, status and flags. -/
def sStale : ClientState :=
  { gridData := [], acrossClues := [clA], downClues := [clD1, clD2],
    cellNumbering := [("9-9", 7)], statusText := "old", statusClasses := ["correct"],
    solveStepDisabled := true, solveAllDisabled := false, pauseDisabled := false,
    pauseRequested := true }

/-- A concrete state agreeing with sStale only on the clue lists. -/
def sFresh : ClientState :=
  { gridData := [[{ is_black := true, char := none }]], acrossClues := [clA],
    downClues := [clD1, clD2], cellNumbering := [], statusText := "",
    statusClasses := [], solveStepDisabled := false, solveAllDisabled := true,
    pauseDisabled := true, pauseRequested := false }

/-- A white cell holding the letter C, used by concrete witnesses. -/
def cellLetter : Cell := { is_black := false, char := some 'C' }

/-- A white cell holding the placeholder star. -/
def cellStar : Cell := { is_black := false, char := some '*' }

/-- A black cell. -/
def cellBlack : Cell := { is_black := true, char := some 'X' }

/-- A tiny concrete grid snapshot. -/
def gridW : List (List Cell) :=
  [[cellLetter, cellStar], [cellBlack, { is_black := false, char := none }]]

/-!
The clue-list update applied after each solve_step response, and the
solve-step / solve-all control flow.
-/
/-- The in-place mutation updateCluesWithAssignments performs on a found
clue: overwrite assigned and confidence from the payload entry. -/
def updateOne (c : Clue) (e : AssignedClue) : Clue :=
  { c with assigned := some e.assigned, confidence := e.confidence }

/-- Array.prototype.find plus mutation: update the first clue whose
number equals the entry's number; leave the list unchanged when no clue
matches. -/
def updateFirst : List Clue → AssignedClue → List Clue
  | [], _ => []
  | c :: cs, e => if c.number = e.number then updateOne c e :: cs else c :: updateFirst cs e

/-- One iteration of the forEach in updateCluesWithAssignments: entries
with direction A update the across list, all others the down list. -/
def applyAssignedEntry (s : ClientState) (e : AssignedClue) : ClientState :=
  if e.direction = "A" then { s with acrossClues := updateFirst s.acrossClues e }
  else { s with downClues := updateFirst s.downClues e }

/-- updateCluesWithAssignments: a missing assigned_clues payload returns
at once; otherwise each entry is applied in order. -/
def updateCluesWithAssignments (entries : Option (List AssignedClue)) (s : ClientState) : ClientState :=
  match entries with
  | none => s
  | some es => es.foldl applyAssignedEntry s

/-- classList.add: append the class unless already present. -/
def addClass (classes : List String) (c : String) : List String :=
  if c ∈ classes then classes else classes ++ [c]

/-- runSolveStep once the fetch has succeeded with body d: store the
grid, update the clue lists, re-render, show the server message when
present, then style the status line: class correct (and disable both
solve buttons) when solved is true, else class incorrect whenever
progress is false; finally return the solved field. -/
def runSolveStep (d : StepResponse) (s : ClientState) : ClientState × Option Bool :=
  let s1 := { s with gridData := d.grid }
  let s2 := updateCluesWithAssignments d.assigned_clues s1
  let s3 := if jsTruthyStr d.message then { s2 with statusText := d.message.getD "" } else s2
  let s4 :=
    if d.solved = some true then
      { s3 with statusClasses := addClass s3.statusClasses "correct",
                solveStepDisabled := true, solveAllDisabled := true }
    else if d.progress = some false then
      { s3 with statusClasses := addClass s3.statusClasses "incorrect" }
    else s3
  (s4, d.solved)

/-- solveStep: reset the status line, run the step; a fetch failure or a
non-ok response is caught, reported in the status text only, and makes
the call return false. -/
def solveStep (outcome : Except String StepResponse) (s : ClientState) : ClientState × Option Bool :=
  let s0 := { s with statusText := "Solving step...", statusClasses := [] }
  match outcome with
  | .ok d => runSolveStep d s0
  | .error msg => ({ s0 with statusText := "Error: " ++ msg }, some false)

/-- The delete statements initializePuzzle runs on every clue of the
freshly fetched lists: remove lingering assigned/confidence fields. -/
def stripSolverFields (c : Clue) : Clue :=
  { c with assigned := none, confidence := none }

/-- initializePuzzle: reset the status line and the clue lists, fetch;
on success store the response grid and clue lists, strip lingering
solver fields, rebuild the numbering map from scratch, re-render and
re-enable the solve buttons; on failure only the status text reports the
error. -/
def initializePuzzle (outcome : Except String InitResponse) (s : ClientState) : ClientState :=
  let s0 := { s with statusText := "Initializing puzzle...", statusClasses := [],
                     acrossClues := [], downClues := [] }
  match outcome with
  | .error msg => { s0 with statusText := "Error: " ++ msg }
  | .ok data =>
    let s1 := { s0 with gridData := data.grid,
                        acrossClues := data.across_clues.map stripSolverFields,
                        downClues := data.down_clues.map stripSolverFields }
    let s2 := createCellNumberingOp s1
    { s2 with solveStepDisabled := false, solveAllDisabled := false, pauseDisabled := true,
              statusText := "Puzzle initialized. Click Solve Step to start solving or Solve All to solve the entire puzzle." }

/-- pauseSolving: the Pause button click handler. -/
def pauseSolving (s : ClientState) : ClientState :=
  { s with pauseRequested := true }

/-- The environment of one solveAll iteration: whether the Pause button
is clicked during this iteration's awaits, and the outcome of this
iteration's fetch. -/
structure IterInput where
  pauseSignal : Bool
  outcome : Except String StepResponse
deriving Repr

/-- Observable network events of the solveAll loop: a request leaves, a
request completes (with a response or an error). -/
inductive NetEvent where
  | reqStart : NetEvent
  | reqEnd : NetEvent
deriving Repr, DecidableEq

/-- Outcome of running the solveAll loop against a finite environment:
either the while condition became false (finished, with the post-loop
state), or the environment ran out while the loop still wanted another
step (running, with the state at the top of the loop). -/
inductive SolveAllResult where
  | finished : ClientState → SolveAllResult
  | running : ClientState → SolveAllResult
deriving Repr, DecidableEq

/-- True when the loop is still going to issue further steps. -/
def SolveAllResult.isRunning : SolveAllResult → Bool
  | .finished _ => false
  | .running _ => true

/-- The code after the while loop of solveAll: disable Pause, then
either report the pause and re-enable both solve buttons, or disable
Solve All. -/
def solveAllPost (s : ClientState) : ClientState :=
  let s1 := { s with pauseDisabled := true }
  if s1.pauseRequested then
    { s1 with statusText := "Paused.", solveStepDisabled := false, solveAllDisabled := false }
  else
    { s1 with solveAllDisabled := true }

/-- The while loop of solveAll: while the returned solved value is falsy
and no pause was requested, wait, let any pause click land, run one
solveStep, and loop on its result.  The second component is the trace of
network events the loop emits. -/
def solveAllGo (inputs : List IterInput) (s : ClientState) (solved : Option Bool) :
    SolveAllResult × List NetEvent :=
  match inputs with
  | [] =>
    if !jsTruthy solved && !s.pauseRequested then (.running s, [])
    else (.finished (solveAllPost s), [])
  | i :: rest =>
    if !jsTruthy solved && !s.pauseRequested then
      let s1 := if i.pauseSignal then pauseSolving s else s
      let p := solveStep i.outcome s1
      let q := solveAllGo rest p.1 p.2
      (q.1, .reqStart :: .reqEnd :: q.2)
    else (.finished (solveAllPost s), [])

/-- solveAll: set the status line, disable the solve buttons, enable
Pause, clear pauseRequested, and enter the loop with solved = null. -/
def solveAll (inputs : List IterInput) (s : ClientState) : SolveAllResult × List NetEvent :=
  solveAllGo inputs
    { s with statusText := "Solving puzzle step by step...", statusClasses := [],
             solveStepDisabled := true, solveAllDisabled := true, pauseDisabled := false,
             pauseRequested := false }
    none

/-- Checker that a trace keeps at most one request in flight: counting
open requests from n, every request starts only at count zero and every
completion matches an open request. -/
def inFlightOk : Nat → List NetEvent → Bool
  | _, [] => true
  | n, .reqStart :: t => n == 0 && inFlightOk (n + 1) t
  | n, .reqEnd :: t => n != 0 && inFlightOk (n - 1) t

/-- The initial client state right after page load, used by the
concrete witnesses. -/
def sInit : ClientState :=
  { gridData := [], acrossClues := [], downClues := [], cellNumbering := [],
    statusText := "", statusClasses := [], solveStepDisabled := false,
    solveAllDisabled := false, pauseDisabled := true, pauseRequested := false }

/-- A terminal solve_step response: the solver is exhausted, no solution
exists, solved is false. -/
def dExhausted : StepResponse :=
  { grid := [], assigned_clues := none, progress := some false,
    message := some "No solution found", solved := some false }

/-- All of the client state except the two clue lists, bundled to state
frame facts about updateCluesWithAssignments. -/
def nonClueFields (s : ClientState) :
    List (List Cell) × List (String × Nat) × String × List String × Bool × Bool × Bool × Bool :=
  (s.gridData, s.cellNumbering, s.statusText, s.statusClasses,
   s.solveStepDisabled, s.solveAllDisabled, s.pauseDisabled, s.pauseRequested)

/-- A solve_step response for an ordinary backtracking step: progress is
false while the puzzle is still in progress (solved is null). -/
def dBacktrack : StepResponse :=
  { grid := [], assigned_clues := none, progress := some false,
    message := some "Backtracking", solved := none }

/-- A second sample across clue with stale solver fields. -/
def clA2 : Clue :=
  { number := 2, start := (2, 0), length := 3, text := "a2",
    assigned := some "OLD", confidence := some 2 }

/-- A concrete client state with two across and two down clues. -/
def sClues : ClientState :=
  { sInit with acrossClues := [clA, clA2], downClues := [clD1, clD2] }

/-- A concrete assigned_clues payload: one across match and one down
entry matching no clue. -/
def esW : List AssignedClue :=
  [{ number := 1, direction := "A", assigned := "CAT", confidence := some 1 },
   { number := 3, direction := "D", assigned := "TOP", confidence := none }]

/-!
Facts about the decimal key strings: the digits of Nat.repr contain no
dash, and Nat.repr is injective, hence cellKey identifies the cell.
-/
theorem toDigitsCore_ten_append : ∀ (f n : Nat) (ds : List Char),
    Nat.toDigitsCore 10 f n ds = Nat.toDigitsCore 10 f n [] ++ ds := by
  intro f
  induction f with
  | zero => intro n ds; simp [Nat.toDigitsCore]
  | succ f ih =>
    intro n ds
    simp only [Nat.toDigitsCore]
    by_cases h : n / 10 = 0
    · simp [h]
    · simp only [h, if_false]
      rw [ih (n / 10) (Nat.digitChar (n % 10) :: ds), ih (n / 10) [Nat.digitChar (n % 10)]]
      simp

theorem mem_toDigitsCore_ten : ∀ (f n : Nat) (ds : List Char) (c : Char),
    c ∈ Nat.toDigitsCore 10 f n ds → (∃ m, m < 10 ∧ c = Nat.digitChar m) ∨ c ∈ ds := by
  intro f
  induction f with
  | zero => intro n ds c h; right; simpa [Nat.toDigitsCore] using h
  | succ f ih =>
    intro n ds c h
    simp only [Nat.toDigitsCore] at h
    by_cases hd : n / 10 = 0
    · simp only [hd, if_true] at h
      rcases List.mem_cons.mp h with h' | h'
      · exact Or.inl ⟨n % 10, Nat.mod_lt _ (by norm_num), h'⟩
      · exact Or.inr h'
    · simp only [hd, if_false] at h
      rcases ih _ _ _ h with h' | h'
      · exact Or.inl h'
      · rcases List.mem_cons.mp h' with h'' | h''
        · exact Or.inl ⟨n % 10, Nat.mod_lt _ (by norm_num), h''⟩
        · exact Or.inr h''

theorem digitChar_ne_dash (m : Nat) (hm : m < 10) : Nat.digitChar m ≠ '-' := by
  interval_cases m <;> decide

theorem dash_not_mem_repr (n : Nat) : '-' ∉ (Nat.repr n).data := by
  intro h
  have hmem : ('-' : Char) ∈ Nat.toDigitsCore 10 (n + 1) n [] := by
    simpa [Nat.repr, Nat.toDigits, List.asString] using h
  rcases mem_toDigitsCore_ten _ _ _ _ hmem with ⟨m, hm10, hm⟩ | h'
  · exact digitChar_ne_dash m hm10 hm.symm
  · simp at h'

theorem digitChar_val (m : Nat) (h : m < 10) : (Nat.digitChar m).toNat - 48 = m := by
  interval_cases m <;> decide

theorem readNatChars_toDigitsCore : ∀ (f n : Nat), n < f →
    readNatChars (Nat.toDigitsCore 10 f n []) = n := by
  intro f
  induction f with
  | zero => intro n h; omega
  | succ f ih =>
    intro n h
    simp only [Nat.toDigitsCore]
    by_cases hd : n / 10 = 0
    · have h10 : n < 10 := by omega
      simp only [hd, if_true, readNatChars, List.foldl]
      rw [digitChar_val (n % 10) (Nat.mod_lt _ (by norm_num))]
      omega
    · simp only [hd, if_false]
      rw [toDigitsCore_ten_append]
      have hn10 : n / 10 < f := by
        have h1 : n / 10 < n := Nat.div_lt_self (by omega) (by norm_num)
        omega
      have hih := ih (n / 10) hn10
      unfold readNatChars at hih ⊢
      rw [List.foldl_append, hih]
      simp only [List.foldl]
      rw [digitChar_val (n % 10) (Nat.mod_lt _ (by norm_num))]
      omega

theorem readNatChars_repr (n : Nat) : readNatChars ((Nat.repr n).data) = n := by
  have hdata : (Nat.repr n).data = Nat.toDigitsCore 10 (n + 1) n [] := by
    simp [Nat.repr, Nat.toDigits, List.asString]
  rw [hdata]
  exact readNatChars_toDigitsCore (n + 1) n (Nat.lt_succ_self n)

theorem repr_data_inj {m n : Nat} (h : (Nat.repr m).data = (Nat.repr n).data) : m = n := by
  have hc := congrArg readNatChars h
  simpa [readNatChars_repr] using hc

theorem splitDash : ∀ (l1 l3 l2 l4 : List Char),
    '-' ∉ l1 → '-' ∉ l3 → l1 ++ '-' :: l2 = l3 ++ '-' :: l4 → l1 = l3 ∧ l2 = l4 := by
  intro l1
  induction l1 with
  | nil =>
    intro l3 l2 l4 _ h3 heq
    cases l3 with
    | nil => simpa using heq
    | cons b bs =>
      simp only [List.nil_append, List.cons_append, List.cons.injEq] at heq
      exact absurd (heq.1 ▸ List.mem_cons_self b bs) h3
  | cons a as ih =>
    intro l3 l2 l4 h1 h3 heq
    cases l3 with
    | nil =>
      simp only [List.nil_append, List.cons_append, List.cons.injEq] at heq
      exact absurd (heq.1.symm ▸ List.mem_cons_self a as) h1
    | cons b bs =>
      simp only [List.cons_append, List.cons.injEq] at heq
      obtain ⟨hab, hrest⟩ := heq
      have h1' : '-' ∉ as := fun hm => h1 (List.mem_cons_of_mem _ hm)
      have h3' : '-' ∉ bs := fun hm => h3 (List.mem_cons_of_mem _ hm)
      obtain ⟨he, hl⟩ := ih bs l2 l4 h1' h3' hrest
      exact ⟨by rw [hab, he], hl⟩

theorem cellKey_inj {r c r' c' : Nat} (h : cellKey r c = cellKey r' c') :
    r = r' ∧ c = c' := by
  have hd : (Nat.repr r).data ++ '-' :: (Nat.repr c).data
      = (Nat.repr r').data ++ '-' :: (Nat.repr c').data := by
    have hc := congrArg String.data h
    simpa [cellKey, String.data_append] using hc
  obtain ⟨h1, h2⟩ := splitDash _ _ _ _ (dash_not_mem_repr r) (dash_not_mem_repr r') hd
  exact ⟨repr_data_inj h1, repr_data_inj h2⟩

/-!
Behaviour of the numbering map built by createCellNumbering.
-/
theorem objGet_nil (k : String) : objGet [] k = none := rfl

theorem objGet_cons (k' : String) (v : Nat) (m : List (String × Nat)) (k : String) :
    objGet ((k', v) :: m) k = if k' = k then some v else objGet m k := by
  by_cases h : k' = k
  · simp [objGet, List.find?_cons, h]
  · simp [objGet, List.find?_cons, h]

theorem jsTruthyNum_some (v : Nat) : jsTruthyNum (some v) = (v != 0) := rfl

theorem truthy_acrossFold : ∀ (ac : List Clue) (m : List (String × Nat)) (k : String),
    (∀ cl ∈ ac, cl.number ≠ 0) →
    (jsTruthyNum (objGet (ac.foldl addAcrossClue m) k) = true ↔
      (∃ cl ∈ ac, clueKey cl = k) ∨ jsTruthyNum (objGet m k) = true) := by
  intro ac
  induction ac with
  | nil => intro m k _; simp
  | cons a tl ih =>
    intro m k hpos
    have hposA : a.number ≠ 0 := hpos a (List.mem_cons_self a tl)
    have hpos' : ∀ cl ∈ tl, cl.number ≠ 0 := fun cl h => hpos cl (List.mem_cons_of_mem _ h)
    simp only [List.foldl_cons]
    rw [ih _ _ hpos']
    show _ ∨ jsTruthyNum (objGet (addAcrossClue m a) k) = true ↔ _
    unfold addAcrossClue objSet
    rw [objGet_cons]
    by_cases hk : clueKey a = k
    · simp only [hk, if_pos rfl, jsTruthyNum_some]
      constructor
      · intro _
        exact Or.inl ⟨a, List.mem_cons_self a tl, hk⟩
      · intro _
        refine Or.inr ?_
        simpa [jsTruthyNum] using hposA
    · simp only [if_neg hk]
      constructor
      · rintro (⟨cl, hm, hck⟩ | h)
        · exact Or.inl ⟨cl, List.mem_cons_of_mem _ hm, hck⟩
        · exact Or.inr h
      · rintro (⟨cl, hm, hck⟩ | h)
        · rcases List.mem_cons.mp hm with rfl | hm'
          · exact absurd hck hk
          · exact Or.inl ⟨cl, hm', hck⟩
        · exact Or.inr h

theorem truthy_downFold : ∀ (dc : List Clue) (m : List (String × Nat)) (k : String),
    (∀ cl ∈ dc, cl.number ≠ 0) →
    (jsTruthyNum (objGet (dc.foldl addDownClue m) k) = true ↔
      (∃ cl ∈ dc, clueKey cl = k) ∨ jsTruthyNum (objGet m k) = true) := by
  intro dc
  induction dc with
  | nil => intro m k _; simp
  | cons d tl ih =>
    intro m k hpos
    have hposD : d.number ≠ 0 := hpos d (List.mem_cons_self d tl)
    have hpos' : ∀ cl ∈ tl, cl.number ≠ 0 := fun cl h => hpos cl (List.mem_cons_of_mem _ h)
    simp only [List.foldl_cons]
    rw [ih _ _ hpos']
    unfold addDownClue
    by_cases ht : jsTruthyNum (objGet m (clueKey d)) = true
    · rw [if_pos ht]
      constructor
      · rintro (⟨cl, hm, hck⟩ | h)
        · exact Or.inl ⟨cl, List.mem_cons_of_mem _ hm, hck⟩
        · exact Or.inr h
      · rintro (⟨cl, hm, hck⟩ | h)
        · rcases List.mem_cons.mp hm with rfl | hm'
          · exact Or.inr (hck ▸ ht)
          · exact Or.inl ⟨cl, hm', hck⟩
        · exact Or.inr h
    · rw [if_neg ht]
      unfold objSet
      rw [objGet_cons]
      by_cases hk : clueKey d = k
      · simp only [hk, if_pos rfl, jsTruthyNum_some]
        constructor
        · intro _
          exact Or.inl ⟨d, List.mem_cons_self d tl, hk⟩
        · intro _
          refine Or.inr ?_
          simpa [jsTruthyNum] using hposD
      · simp only [if_neg hk]
        constructor
        · rintro (⟨cl, hm, hck⟩ | h)
          · exact Or.inl ⟨cl, List.mem_cons_of_mem _ hm, hck⟩
          · exact Or.inr h
        · rintro (⟨cl, hm, hck⟩ | h)
          · rcases List.mem_cons.mp hm with rfl | hm'
            · exact absurd hck hk
            · exact Or.inl ⟨cl, hm', hck⟩
          · exact Or.inr h

theorem objGet_acrossFold_of_not_mem : ∀ (ac : List Clue) (m : List (String × Nat)) (k : String),
    (∀ cl ∈ ac, clueKey cl ≠ k) →
    objGet (ac.foldl addAcrossClue m) k = objGet m k := by
  intro ac
  induction ac with
  | nil => intro m k _; rfl
  | cons a tl ih =>
    intro m k hne
    simp only [List.foldl_cons]
    rw [ih _ _ fun cl h => hne cl (List.mem_cons_of_mem _ h)]
    unfold addAcrossClue objSet
    rw [objGet_cons, if_neg (hne a (List.mem_cons_self a tl))]

theorem objGet_acrossFold_mem : ∀ (ac : List Clue) (m : List (String × Nat)) (cl : Clue),
    (ac.map clueKey).Nodup → cl ∈ ac →
    objGet (ac.foldl addAcrossClue m) (clueKey cl) = some cl.number := by
  intro ac
  induction ac with
  | nil => intro m cl _ h; exact absurd h (List.not_mem_nil cl)
  | cons a tl ih =>
    intro m cl hnd hm
    have hnd' := (List.nodup_cons.mp hnd)
    simp only [List.foldl_cons]
    rcases List.mem_cons.mp hm with rfl | hm'
    · have hne : ∀ cl' ∈ tl, clueKey cl' ≠ clueKey cl := by
        intro cl' h' heq
        exact hnd'.1 (heq ▸ List.mem_map_of_mem clueKey h')
      rw [objGet_acrossFold_of_not_mem tl _ _ hne]
      unfold addAcrossClue objSet
      rw [objGet_cons, if_pos rfl]
    · exact ih _ cl hnd'.2 hm'

theorem objGet_downFold_of_truthy : ∀ (dc : List Clue) (m : List (String × Nat)) (k : String),
    jsTruthyNum (objGet m k) = true →
    objGet (dc.foldl addDownClue m) k = objGet m k := by
  intro dc
  induction dc with
  | nil => intro m k _; rfl
  | cons d tl ih =>
    intro m k ht
    simp only [List.foldl_cons]
    by_cases hd : jsTruthyNum (objGet m (clueKey d)) = true
    · rw [show addDownClue m d = m from by unfold addDownClue; rw [if_pos hd]]
      exact ih m k ht
    · have hstep : addDownClue m d = objSet m (clueKey d) d.number := by
        unfold addDownClue
        rw [if_neg hd]
      have hk : clueKey d ≠ k := fun heq => hd (heq ▸ ht)
      have hobj : objGet (objSet m (clueKey d) d.number) k = objGet m k := by
        unfold objSet
        rw [objGet_cons, if_neg hk]
      rw [hstep, ih _ k (by rw [hobj]; exact ht), hobj]

theorem jsTruthyNum_none : jsTruthyNum none = false := rfl

/-- C2: for every pair of across/down clue lists coming from initialize
(clue numbers are nonzero and across start cells are pairwise distinct),
the numbering map built by createCellNumbering gives a cell's key a
truthy value, and hence a visible number in renderGrid, iff that cell is
the start position of some across or down clue; and a cell that starts
an across clue keeps exactly that across clue's number: the down pass
never overwrites the number placed by the across pass. -/
theorem createCellNumbering_numbers_starts (ac dc : List Clue)
    (hpos : ∀ cl, cl ∈ ac ++ dc → cl.number ≠ 0)
    (hnd : (ac.map clueKey).Nodup) :
    (∀ r c : Nat,
      jsTruthyNum (objGet (createCellNumbering ac dc) (cellKey r c)) = true ↔
        ∃ cl, (cl ∈ ac ∨ cl ∈ dc) ∧ cl.start = (r, c))
    ∧ (∀ cl, cl ∈ ac → objGet (createCellNumbering ac dc) (clueKey cl) = some cl.number) := by
  have hposA : ∀ cl ∈ ac, cl.number ≠ 0 := fun cl h => hpos cl (List.mem_append_left _ h)
  have hposD : ∀ cl ∈ dc, cl.number ≠ 0 := fun cl h => hpos cl (List.mem_append_right _ h)
  constructor
  · intro r c
    unfold createCellNumbering
    rw [truthy_downFold dc _ _ hposD, truthy_acrossFold ac _ _ hposA]
    simp only [objGet_nil, jsTruthyNum_none, Bool.false_eq_true, or_false]
    constructor
    · rintro (⟨cl, hm, hck⟩ | ⟨cl, hm, hck⟩)
      · have hck' : cellKey cl.start.1 cl.start.2 = cellKey r c := hck
        obtain ⟨h1, h2⟩ := cellKey_inj hck'
        exact ⟨cl, Or.inr hm, Prod.ext_iff.mpr ⟨h1, h2⟩⟩
      · have hck' : cellKey cl.start.1 cl.start.2 = cellKey r c := hck
        obtain ⟨h1, h2⟩ := cellKey_inj hck'
        exact ⟨cl, Or.inl hm, Prod.ext_iff.mpr ⟨h1, h2⟩⟩
    · rintro ⟨cl, hm | hm, hs⟩
      · refine Or.inr ⟨cl, hm, ?_⟩
        show cellKey cl.start.1 cl.start.2 = cellKey r c
        rw [hs]
      · refine Or.inl ⟨cl, hm, ?_⟩
        show cellKey cl.start.1 cl.start.2 = cellKey r c
        rw [hs]
  · intro cl hm
    unfold createCellNumbering
    have hac := objGet_acrossFold_mem ac [] cl hnd hm
    have htr : jsTruthyNum (objGet (ac.foldl addAcrossClue []) (clueKey cl)) = true := by
      rw [hac]
      simpa [jsTruthyNum] using hposA cl hm
    rw [objGet_downFold_of_truthy dc _ _ htr, hac]

theorem createCellNumbering_numbers_starts_witness :
    jsTruthyNum (objGet (createCellNumbering [clA] [clD1, clD2]) (cellKey 0 1)) = true
    ∧ objGet (createCellNumbering [clA] [clD1, clD2]) (clueKey clA) = some clA.number := by
  have h := createCellNumbering_numbers_starts [clA] [clD1, clD2] (by decide) (by decide)
  exact ⟨(h.1 0 1).mpr ⟨clD2, Or.inr (by decide), by decide⟩, h.2 clA (by decide)⟩

/-- C10: createCellNumbering is deterministic and reads nothing of the
client state beyond the acrossClues and downClues globals: two states
that agree on the clue lists, whatever their grids, previous numbering
maps, status line, button or pause flags, produce equal numbering maps. -/
theorem createCellNumbering_depends_only_on_clues (s1 s2 : ClientState)
    (ha : s1.acrossClues = s2.acrossClues) (hd : s1.downClues = s2.downClues) :
    (createCellNumberingOp s1).cellNumbering = (createCellNumberingOp s2).cellNumbering := by
  simp [createCellNumberingOp, ha, hd]

theorem createCellNumbering_depends_only_on_clues_witness :
    (createCellNumberingOp sStale).cellNumbering = (createCellNumberingOp sFresh).cellNumbering :=
  createCellNumbering_depends_only_on_clues sStale sFresh rfl rfl

/-- C8: for every grid snapshot, renderGrid shows a letter in a cell iff
the cell is white and its char field holds a character, where the
placeholder star counts as no letter; a black cell is rendered with
neither a number nor a letter. -/
theorem renderGrid_letter_iff (numbering : List (String × Nat)) (grid : List (List Cell))
    (r c : Nat) (row : List Cell) (cell : Cell)
    (hr : grid[r]? = some row) (hc : row[c]? = some cell) :
    (((renderGrid numbering grid)[r]?).bind fun rrow => rrow[c]?)
        = some (renderCell numbering r c cell)
    ∧ (∀ ch : Char, (renderCell numbering r c cell).letterText = some ch ↔
        cell.is_black = false ∧ cell.char = some ch ∧ ch ≠ '*')
    ∧ (cell.is_black = true →
        (renderCell numbering r c cell).numberText = none
        ∧ (renderCell numbering r c cell).letterText = none) := by
  refine ⟨?_, ?_, ?_⟩
  · simp [renderGrid, List.getElem?_map, List.getElem?_enum, hr, hc]
  · intro ch
    cases hb : cell.is_black with
    | true => simp [renderCell, hb]
    | false =>
      cases hch : cell.char with
      | none => simp [renderCell, hb, hch]
      | some x =>
        have hL : (renderCell numbering r c cell).letterText
            = if x != '*' then some x else none := by
          simp [renderCell, hb, hch]
        rw [hL]
        by_cases hx : x = '*'
        · subst hx
          simp only [bne_self_eq_false, Bool.false_eq_true, if_false, hb, hch]
          constructor
          · intro h
            exact absurd h (by simp)
          · rintro ⟨-, h, hne⟩
            exact absurd (Option.some.inj h).symm hne
        · simp only [bne_iff_ne, ne_eq, hx, not_false_eq_true, if_true, hb, hch,
            Option.some.injEq]
          constructor
          · rintro rfl
            exact ⟨trivial, rfl, hx⟩
          · rintro ⟨-, h, -⟩
            exact h
  · intro hb
    simp [renderCell, hb]

theorem renderGrid_letter_iff_witness :
    (((renderGrid [] gridW)[0]?).bind fun rrow => rrow[0]?) = some (renderCell [] 0 0 cellLetter)
    ∧ (renderCell [] 0 0 cellLetter).letterText = some 'C' := by
  have h := renderGrid_letter_iff [] gridW 0 0 [cellLetter, cellStar] cellLetter rfl rfl
  exact ⟨h.1, (h.2.1 'C').mpr ⟨rfl, rfl, by decide⟩⟩

/-- C4: every successful initializePuzzle call rebuilds gridData,
acrossClues, downClues and cellNumbering solely from the /api/initialize
response: the clue lists are the response lists with any lingering
assigned/confidence removed, the numbering map is recomputed from the
fresh clue lists alone, and two calls from arbitrary different prior
states produce identical rebuilt data, so nothing of a previous session
survives. -/
theorem initializePuzzle_rebuilds_from_response (data : InitResponse) (s s' : ClientState) :
    (initializePuzzle (.ok data) s).gridData = data.grid
    ∧ (initializePuzzle (.ok data) s).acrossClues = data.across_clues.map stripSolverFields
    ∧ (initializePuzzle (.ok data) s).downClues = data.down_clues.map stripSolverFields
    ∧ (initializePuzzle (.ok data) s).cellNumbering
        = createCellNumbering ((initializePuzzle (.ok data) s).acrossClues)
            ((initializePuzzle (.ok data) s).downClues)
    ∧ (∀ cl, cl ∈ (initializePuzzle (.ok data) s).acrossClues
            ++ (initializePuzzle (.ok data) s).downClues →
        cl.assigned = none ∧ cl.confidence = none)
    ∧ (initializePuzzle (.ok data) s).gridData = (initializePuzzle (.ok data) s').gridData
    ∧ (initializePuzzle (.ok data) s).acrossClues = (initializePuzzle (.ok data) s').acrossClues
    ∧ (initializePuzzle (.ok data) s).downClues = (initializePuzzle (.ok data) s').downClues
    ∧ (initializePuzzle (.ok data) s).cellNumbering
        = (initializePuzzle (.ok data) s').cellNumbering := by
  refine ⟨rfl, rfl, rfl, rfl, ?_, rfl, rfl, rfl, rfl⟩
  intro cl hm
  rcases List.mem_append.mp hm with h | h <;>
  · rcases List.mem_map.mp h with ⟨c0, -, rfl⟩
    exact ⟨rfl, rfl⟩

/-- C9: a failed solve_step request (non-ok HTTP response or network
error, both thrown and caught in solveStep) leaves the client state
unchanged: gridData, the clue lists, the numbering map and the button
states keep the values they had before the call, only the status line
reports the error, and solveStep returns false. -/
theorem solveStep_error_state_unchanged (msg : String) (s : ClientState) :
    (solveStep (.error msg) s).2 = some false
    ∧ (solveStep (.error msg) s).1.gridData = s.gridData
    ∧ (solveStep (.error msg) s).1.acrossClues = s.acrossClues
    ∧ (solveStep (.error msg) s).1.downClues = s.downClues
    ∧ (solveStep (.error msg) s).1.cellNumbering = s.cellNumbering
    ∧ (solveStep (.error msg) s).1.solveStepDisabled = s.solveStepDisabled
    ∧ (solveStep (.error msg) s).1.solveAllDisabled = s.solveAllDisabled
    ∧ (solveStep (.error msg) s).1.statusText = "Error: " ++ msg :=
  ⟨rfl, rfl, rfl, rfl, rfl, rfl, rfl, rfl⟩

/-- C7: during any run of solveAll at most one solve_step request is in
flight at any time: the loop's network trace only ever opens a new
request once the previous one has completed, because each iteration
awaits its response before the next iteration starts. -/
theorem solveAll_requests_serialized (inputs : List IterInput) (s : ClientState) :
    inFlightOk 0 (solveAll inputs s).2 = true := by
  have key : ∀ (ins : List IterInput) (t : ClientState) (v : Option Bool),
      inFlightOk 0 (solveAllGo ins t v).2 = true := by
    intro ins
    induction ins with
    | nil =>
      intro t v
      simp only [solveAllGo]
      split <;> rfl
    | cons i rest ih =>
      intro t v
      simp only [solveAllGo]
      split
      · simp only [inFlightOk]
        simp [ih]
      · rfl
  exact key inputs _ none

/-- C1 counterexample: the claim says the solveAll loop terminates as
soon as a terminal step result (solved true or solved false) is
returned; but after a step returns the terminal result solved = false
the loop is still running, and given a second response it issues a
second request (four network events). -/
theorem solveAll_continues_after_exhausted :
    (solveAll [⟨false, .ok dExhausted⟩] sInit).1.isRunning = true
    ∧ (solveAll [⟨false, .ok dExhausted⟩, ⟨false, .ok dExhausted⟩] sInit).2.length = 4
    ∧ dExhausted.solved = some false :=
  ⟨rfl, rfl, rfl⟩

/-- C1 (amended): the solveAll loop keeps stepping while the value
returned by solveStep is falsy (null while the puzzle is in progress, or
false) and no pause is requested — so it does continue through steps
reporting progress = false — and it terminates as soon as a step returns
solved = true; but a terminal solved = false does not stop it. -/
theorem solveAll_loop_policy (i : IterInput) (rest : List IterInput) (s : ClientState)
    (solved : Option Bool) (hp : s.pauseRequested = false)
    (hs : solved = none ∨ solved = some false) :
    solveAllGo (i :: rest) s solved
      = ((solveAllGo rest (solveStep i.outcome (if i.pauseSignal then pauseSolving s else s)).1
            (solveStep i.outcome (if i.pauseSignal then pauseSolving s else s)).2).1,
         NetEvent.reqStart :: NetEvent.reqEnd ::
           (solveAllGo rest (solveStep i.outcome (if i.pauseSignal then pauseSolving s else s)).1
              (solveStep i.outcome (if i.pauseSignal then pauseSolving s else s)).2).2)
    ∧ (solveAllGo (i :: rest) s (some true)).1 = .finished (solveAllPost s) := by
  constructor
  · have hcond : (!jsTruthy solved && !s.pauseRequested) = true := by
      rcases hs with rfl | rfl <;> simp [jsTruthy, hp]
    simp only [solveAllGo, hcond, if_true]
  · simp [solveAllGo, jsTruthy]

theorem solveAll_loop_policy_witness :
    solveAllGo [⟨false, Except.ok dExhausted⟩] sInit none
      = ((solveAllGo [] (solveStep (Except.ok dExhausted) sInit).1
            (solveStep (Except.ok dExhausted) sInit).2).1,
         NetEvent.reqStart :: NetEvent.reqEnd ::
           (solveAllGo [] (solveStep (Except.ok dExhausted) sInit).1
              (solveStep (Except.ok dExhausted) sInit).2).2)
    ∧ (solveAllGo [⟨false, Except.ok dExhausted⟩] sInit (some true)).1
        = SolveAllResult.finished (solveAllPost sInit) :=
  solveAll_loop_policy ⟨false, Except.ok dExhausted⟩ [] sInit none rfl (Or.inl rfl)

theorem applyAssignedEntry_nonClueFields (s : ClientState) (e : AssignedClue) :
    nonClueFields (applyAssignedEntry s e) = nonClueFields s := by
  unfold applyAssignedEntry
  split <;> rfl

theorem updateClues_nonClueFields (entries : Option (List AssignedClue)) (s : ClientState) :
    nonClueFields (updateCluesWithAssignments entries s) = nonClueFields s := by
  cases entries with
  | none => rfl
  | some es =>
    induction es generalizing s with
    | nil => rfl
    | cons e tl ih =>
      calc nonClueFields (updateCluesWithAssignments (some tl) (applyAssignedEntry s e))
          = nonClueFields (applyAssignedEntry s e) := ih _
        _ = nonClueFields s := applyAssignedEntry_nonClueFields s e

theorem updateClues_statusClasses (entries : Option (List AssignedClue)) (s : ClientState) :
    (updateCluesWithAssignments entries s).statusClasses = s.statusClasses :=
  congrArg (fun t => t.2.2.2.1) (updateClues_nonClueFields entries s)

/-- C5 counterexample: an ordinary backtracking step (progress = false,
solved still null) is not surfaced as an ordinary progress message: the
client adds the alarm styling class incorrect to the status element,
exactly the styling the claim reserves for the Exhausted state. -/
theorem backtrack_step_gets_incorrect_class :
    (solveStep (Except.ok dBacktrack) sInit).1.statusClasses = ["incorrect"]
    ∧ dBacktrack.solved = none ∧ dBacktrack.progress = some false :=
  ⟨rfl, rfl, rfl⟩

/-- C5 (amended): runSolveStep adds the incorrect styling to every step
whose progress field is false and whose solved field is not true,
whether the puzzle is still in progress (an ordinary backtracking step,
solved null) or terminally exhausted (solved false); on non-solved steps
whose progress is not false no class is added.  The Exhausted state is
therefore not visually distinguished from an ordinary backtrack. -/
theorem progress_false_styling (d : StepResponse) (s : ClientState)
    (hns : d.solved ≠ some true) :
    (d.progress = some false →
      (runSolveStep d s).1.statusClasses = addClass s.statusClasses "incorrect")
    ∧ (d.progress ≠ some false →
      (runSolveStep d s).1.statusClasses = s.statusClasses) := by
  have hcls := updateClues_statusClasses d.assigned_clues { s with gridData := d.grid }
  have hmsg : ∀ t : ClientState,
      (if jsTruthyStr d.message then { t with statusText := d.message.getD "" } else t).statusClasses
        = t.statusClasses := by
    intro t
    split <;> rfl
  constructor
  · intro hp
    show (runSolveStep d s).1.statusClasses = _
    unfold runSolveStep
    simp only [if_neg hns, if_pos hp]
    rw [hmsg, hcls]
  · intro hp
    show (runSolveStep d s).1.statusClasses = _
    unfold runSolveStep
    simp only [if_neg hns, if_neg hp]
    rw [hmsg, hcls]

theorem progress_false_styling_witness :
    (runSolveStep dBacktrack sInit).1.statusClasses = addClass sInit.statusClasses "incorrect" := by
  have h := progress_false_styling dBacktrack sInit (by decide)
  exact h.1 rfl

theorem runSolveStep_fields (d : StepResponse) (t : ClientState) :
    (runSolveStep d t).1.gridData = d.grid
    ∧ (runSolveStep d t).1.pauseRequested = t.pauseRequested
    ∧ (runSolveStep d t).1.acrossClues
        = (updateCluesWithAssignments d.assigned_clues { t with gridData := d.grid }).acrossClues
    ∧ (runSolveStep d t).1.downClues
        = (updateCluesWithAssignments d.assigned_clues { t with gridData := d.grid }).downClues := by
  have hframe := updateClues_nonClueFields d.assigned_clues { t with gridData := d.grid }
  have hgrid : (updateCluesWithAssignments d.assigned_clues
      { t with gridData := d.grid }).gridData = d.grid :=
    congrArg (fun x => x.1) hframe
  have hpause : (updateCluesWithAssignments d.assigned_clues
      { t with gridData := d.grid }).pauseRequested = t.pauseRequested :=
    congrArg (fun x => x.2.2.2.2.2.2.2) hframe
  unfold runSolveStep
  dsimp only
  refine ⟨?_, ?_, ?_, ?_⟩ <;> (repeat' split) <;> first | exact hgrid | exact hpause | rfl

theorem solveStep_pauseRequested (o : Except String StepResponse) (t : ClientState) :
    (solveStep o t).1.pauseRequested = t.pauseRequested := by
  cases o with
  | error msg => rfl
  | ok d =>
    exact (runSolveStep_fields d
      { t with statusText := "Solving step...", statusClasses := [] }).2.1

theorem solveAllPost_paused (t : ClientState) (h : t.pauseRequested = true) :
    solveAllPost t
      = { t with
          pauseDisabled := true
          statusText := "Paused."
          solveStepDisabled := false
          solveAllDisabled := false } := by
  unfold solveAllPost
  dsimp only
  rw [if_pos h]

/-- C6: if a pause is requested during a solveAll iteration, the loop
stops only at the step boundary: the in-flight solve_step completes and
its response is applied to the grid and clue lists before the loop
exits, no further request is issued whatever environment remains, Solve
Step and Solve All are re-enabled, the status reads Paused, and the
updated grid and clue lists are kept so a later solveStep or solveAll
resumes from this state. -/
theorem pause_stops_at_step_boundary (i : IterInput) (rest : List IterInput)
    (s : ClientState) (solved : Option Bool) (d : StepResponse)
    (hp : s.pauseRequested = false) (hsig : i.pauseSignal = true)
    (hok : i.outcome = Except.ok d) (hs : jsTruthy solved = false) :
    solveAllGo (i :: rest) s solved
      = (.finished (solveAllPost (solveStep (Except.ok d) (pauseSolving s)).1),
         [NetEvent.reqStart, NetEvent.reqEnd])
    ∧ (solveStep (Except.ok d) (pauseSolving s)).1.gridData = d.grid
    ∧ (solveAllPost ((solveStep (Except.ok d) (pauseSolving s)).1)).gridData
        = (solveStep (Except.ok d) (pauseSolving s)).1.gridData
    ∧ (solveAllPost ((solveStep (Except.ok d) (pauseSolving s)).1)).acrossClues
        = (solveStep (Except.ok d) (pauseSolving s)).1.acrossClues
    ∧ (solveAllPost ((solveStep (Except.ok d) (pauseSolving s)).1)).downClues
        = (solveStep (Except.ok d) (pauseSolving s)).1.downClues
    ∧ (solveAllPost ((solveStep (Except.ok d) (pauseSolving s)).1)).solveStepDisabled = false
    ∧ (solveAllPost ((solveStep (Except.ok d) (pauseSolving s)).1)).solveAllDisabled = false
    ∧ (solveAllPost ((solveStep (Except.ok d) (pauseSolving s)).1)).statusText = "Paused." := by
  have hpr : (solveStep (Except.ok d) (pauseSolving s)).1.pauseRequested = true := by
    rw [solveStep_pauseRequested]
    rfl
  have hpost := solveAllPost_paused _ hpr
  have hcond : (!jsTruthy solved && !s.pauseRequested) = true := by
    simp [hs, hp]
  refine ⟨?_, (runSolveStep_fields d _).1, by rw [hpost], by rw [hpost], by rw [hpost],
          by rw [hpost], by rw [hpost], by rw [hpost]⟩
  have hq : solveAllGo rest (solveStep (Except.ok d) (pauseSolving s)).1
      (solveStep (Except.ok d) (pauseSolving s)).2
      = (.finished (solveAllPost (solveStep (Except.ok d) (pauseSolving s)).1), []) := by
    cases rest with
    | nil => simp [solveAllGo, hpr]
    | cons j tl => simp [solveAllGo, hpr]
  simp only [solveAllGo, hcond, if_true, hsig, hok]
  rw [hq]

theorem pause_stops_at_step_boundary_witness :
    solveAllGo [⟨true, Except.ok dBacktrack⟩] sInit none
      = (SolveAllResult.finished
           (solveAllPost (solveStep (Except.ok dBacktrack) (pauseSolving sInit)).1),
         [NetEvent.reqStart, NetEvent.reqEnd])
    ∧ (solveStep (Except.ok dBacktrack) (pauseSolving sInit)).1.gridData = dBacktrack.grid
    ∧ (solveAllPost ((solveStep (Except.ok dBacktrack) (pauseSolving sInit)).1)).gridData
        = (solveStep (Except.ok dBacktrack) (pauseSolving sInit)).1.gridData
    ∧ (solveAllPost ((solveStep (Except.ok dBacktrack) (pauseSolving sInit)).1)).acrossClues
        = (solveStep (Except.ok dBacktrack) (pauseSolving sInit)).1.acrossClues
    ∧ (solveAllPost ((solveStep (Except.ok dBacktrack) (pauseSolving sInit)).1)).downClues
        = (solveStep (Except.ok dBacktrack) (pauseSolving sInit)).1.downClues
    ∧ (solveAllPost ((solveStep (Except.ok dBacktrack) (pauseSolving sInit)).1)).solveStepDisabled
        = false
    ∧ (solveAllPost ((solveStep (Except.ok dBacktrack) (pauseSolving sInit)).1)).solveAllDisabled
        = false
    ∧ (solveAllPost ((solveStep (Except.ok dBacktrack) (pauseSolving sInit)).1)).statusText
        = "Paused." :=
  pause_stops_at_step_boundary ⟨true, Except.ok dBacktrack⟩ [] sInit none dBacktrack
    rfl rfl rfl rfl

theorem find?_filter_and (l : List AssignedClue) (q p : AssignedClue → Bool) :
    (l.filter q).find? p = l.find? fun e => q e && p e := by
  induction l with
  | nil => rfl
  | cons e tl ih =>
    cases hq : q e with
    | false => simp [List.filter_cons, hq, List.find?, ih]
    | true =>
      cases hp : p e with
      | true => simp [List.filter_cons, hq, List.find?, hp]
      | false => simp [List.filter_cons, hq, List.find?, hp, ih]

theorem updateOne_number (c : Clue) (e : AssignedClue) : (updateOne c e).number = c.number := rfl

theorem updateFirst_map_number (cs : List Clue) (e : AssignedClue) :
    (updateFirst cs e).map Clue.number = cs.map Clue.number := by
  induction cs with
  | nil => rfl
  | cons a tl ih =>
    unfold updateFirst
    split
    · simp [updateOne_number]
    · simp [ih]

theorem updateFirst_getElem?_of_ne : ∀ (cs : List Clue) (e : AssignedClue) (i : Nat) (c : Clue),
    cs[i]? = some c → c.number ≠ e.number → (updateFirst cs e)[i]? = some c := by
  intro cs
  induction cs with
  | nil => intro e i c hc _; simp at hc
  | cons a tl ih =>
    intro e i c hc hne
    unfold updateFirst
    split
    case isTrue ha =>
      cases i with
      | zero =>
        have hac : a = c := by simpa using hc
        subst hac
        exact absurd ha hne
      | succ n =>
        simp only [List.getElem?_cons_succ] at hc ⊢
        exact hc
    case isFalse ha =>
      cases i with
      | zero => simpa using hc
      | succ n =>
        simp only [List.getElem?_cons_succ] at hc ⊢
        exact ih e n c hc hne

theorem updateFirst_getElem?_of_eq : ∀ (cs : List Clue) (e : AssignedClue) (i : Nat) (c : Clue),
    (cs.map Clue.number).Nodup → cs[i]? = some c → c.number = e.number →
    (updateFirst cs e)[i]? = some (updateOne c e) := by
  intro cs
  induction cs with
  | nil => intro e i c _ hc _; simp at hc
  | cons a tl ih =>
    intro e i c hnd hc heq
    have hnd' : (∀ x ∈ tl, ¬ x.number = a.number) ∧ (tl.map Clue.number).Nodup := by
      simpa using hnd
    unfold updateFirst
    cases i with
    | zero =>
      have hac : a = c := by simpa using hc
      subst hac
      rw [if_pos heq]
      simp
    | succ n =>
      simp only [List.getElem?_cons_succ] at hc
      have hmem : c ∈ tl := List.getElem?_mem hc
      have hane : ¬ (a.number = e.number) := by
        intro h
        exact hnd'.1 c hmem (heq.trans h.symm)
      rw [if_neg hane]
      simp only [List.getElem?_cons_succ]
      exact ih e n c hnd'.2 hc heq

theorem foldl_updateFirst_getElem? : ∀ (fs : List AssignedClue) (l : List Clue) (i : Nat) (c : Clue),
    (l.map Clue.number).Nodup → (fs.map AssignedClue.number).Nodup → l[i]? = some c →
    (fs.foldl updateFirst l)[i]?
      = some (match fs.find? (fun e => e.number == c.number) with
              | some e => updateOne c e
              | none => c) := by
  intro fs
  induction fs with
  | nil => intro l i c _ _ hc; simpa using hc
  | cons f tl ih =>
    intro l i c hndl hndf hc
    have hsplit : (∀ x ∈ tl, ¬ x.number = f.number) ∧ (tl.map AssignedClue.number).Nodup := by
      simpa using hndf
    simp only [List.foldl_cons]
    by_cases hf : c.number = f.number
    · have h1 : (updateFirst l f)[i]? = some (updateOne c f) :=
        updateFirst_getElem?_of_eq l f i c hndl hc hf
      have hndl' : ((updateFirst l f).map Clue.number).Nodup := by
        rw [updateFirst_map_number]
        exact hndl
      have htl := ih (updateFirst l f) i (updateOne c f) hndl' hsplit.2 h1
      have hnone : tl.find? (fun e => e.number == (updateOne c f).number) = none := by
        rw [List.find?_eq_none]
        intro e he hbeq
        have hen : e.number = c.number := by simpa [updateOne] using hbeq
        exact hsplit.1 e he (hen.trans hf)
      have hfind : (f :: tl).find? (fun e => e.number == c.number) = some f :=
        List.find?_cons_of_pos _ (by simpa using hf.symm)
      rw [htl, hnone, hfind]
    · have h1 : (updateFirst l f)[i]? = some c := updateFirst_getElem?_of_ne l f i c hc hf
      have hndl' : ((updateFirst l f).map Clue.number).Nodup := by
        rw [updateFirst_map_number]
        exact hndl
      have htl := ih (updateFirst l f) i c hndl' hsplit.2 h1
      have hskip : (f :: tl).find? (fun e => e.number == c.number)
          = tl.find? (fun e => e.number == c.number) :=
        List.find?_cons_of_neg _ (by simpa using fun h => hf h.symm)
      rw [htl, hskip]

theorem fold_apply_acrossClues : ∀ (es : List AssignedClue) (s : ClientState),
    (es.foldl applyAssignedEntry s).acrossClues
      = (es.filter fun e => e.direction == "A").foldl updateFirst s.acrossClues := by
  intro es
  induction es with
  | nil => intro s; rfl
  | cons e tl ih =>
    intro s
    simp only [List.foldl_cons, List.filter_cons]
    cases hb : (e.direction == "A") with
    | true =>
      have hd : e.direction = "A" := by simpa using hb
      rw [ih]
      have hacross : (applyAssignedEntry s e).acrossClues = updateFirst s.acrossClues e := by
        unfold applyAssignedEntry
        rw [if_pos hd]
      rw [hacross]
      simp [hb]
    | false =>
      have hd : ¬ e.direction = "A" := by simpa using hb
      rw [ih]
      have hacross : (applyAssignedEntry s e).acrossClues = s.acrossClues := by
        unfold applyAssignedEntry
        rw [if_neg hd]
      rw [hacross]
      simp [hb]

theorem fold_apply_downClues : ∀ (es : List AssignedClue) (s : ClientState),
    (es.foldl applyAssignedEntry s).downClues
      = (es.filter fun e => !(e.direction == "A")).foldl updateFirst s.downClues := by
  intro es
  induction es with
  | nil => intro s; rfl
  | cons e tl ih =>
    intro s
    simp only [List.foldl_cons, List.filter_cons]
    cases hb : (e.direction == "A") with
    | true =>
      have hd : e.direction = "A" := by simpa using hb
      rw [ih]
      have hdown : (applyAssignedEntry s e).downClues = s.downClues := by
        unfold applyAssignedEntry
        rw [if_pos hd]
      rw [hdown]
      simp [hb]
    | false =>
      have hd : ¬ e.direction = "A" := by simpa using hb
      rw [ih]
      have hdown : (applyAssignedEntry s e).downClues = updateFirst s.downClues e := by
        unfold applyAssignedEntry
        rw [if_neg hd]
      rw [hdown]
      simp [hb]

/-- C3: for an assigned_clues payload whose entries carry direction A or
D and name each clue at most once, against clue lists whose numbers are
unique per direction, updateCluesWithAssignments overwrites assigned and
confidence of exactly the clues matched by (number, direction) — the
matched clue at position i becomes updateOne of its old value, keeping
number, start, length and text — every unmatched clue keeps its exact
old value, an entry matching no clue of its direction list is ignored
without error, and nothing outside the two clue lists changes. -/
theorem updateCluesWithAssignments_spec (es : List AssignedClue) (s : ClientState)
    (hA : (s.acrossClues.map Clue.number).Nodup)
    (hD : (s.downClues.map Clue.number).Nodup)
    (hdir : ∀ e ∈ es, e.direction = "A" ∨ e.direction = "D")
    (hEA : ((es.filter fun e => e.direction == "A").map AssignedClue.number).Nodup)
    (hED : ((es.filter fun e => e.direction == "D").map AssignedClue.number).Nodup) :
    (updateCluesWithAssignments (some es) s).gridData = s.gridData
    ∧ (updateCluesWithAssignments (some es) s).cellNumbering = s.cellNumbering
    ∧ (∀ (i : Nat) (c : Clue), s.acrossClues[i]? = some c →
        (updateCluesWithAssignments (some es) s).acrossClues[i]?
          = some (match es.find? (fun e => e.direction == "A" && e.number == c.number) with
                  | some e => updateOne c e
                  | none => c))
    ∧ (∀ (i : Nat) (c : Clue), s.downClues[i]? = some c →
        (updateCluesWithAssignments (some es) s).downClues[i]?
          = some (match es.find? (fun e => e.direction == "D" && e.number == c.number) with
                  | some e => updateOne c e
                  | none => c)) := by
  have hframe := updateClues_nonClueFields (some es) s
  refine ⟨congrArg (fun x => x.1) hframe, congrArg (fun x => x.2.1) hframe, ?_, ?_⟩
  · intro i c hc
    have hshape : (updateCluesWithAssignments (some es) s).acrossClues
        = (es.filter fun e => e.direction == "A").foldl updateFirst s.acrossClues :=
      fold_apply_acrossClues es s
    have hfold := foldl_updateFirst_getElem? (es.filter fun e => e.direction == "A")
        s.acrossClues i c hA hEA hc
    rw [hshape, hfold, find?_filter_and es _ _]
  · intro i c hc
    have hfe : es.filter (fun e => !(e.direction == "A")) = es.filter (fun e => e.direction == "D") :=
      List.filter_congr (fun e he => by rcases hdir e he with h | h <;> simp [h])
    have hshape : (updateCluesWithAssignments (some es) s).downClues
        = (es.filter fun e => !(e.direction == "A")).foldl updateFirst s.downClues :=
      fold_apply_downClues es s
    have hfold := foldl_updateFirst_getElem? (es.filter fun e => e.direction == "D")
        s.downClues i c hD hED hc
    rw [hshape, hfe, hfold, find?_filter_and es _ _]

theorem updateCluesWithAssignments_spec_witness :
    (updateCluesWithAssignments (some esW) sClues).acrossClues[0]?
      = some { number := 1, start := (0, 0), length := 3, text := "a",
               assigned := some "CAT", confidence := some 1 }
    ∧ (updateCluesWithAssignments (some esW) sClues).downClues[0]? = some clD1 := by
  have h := updateCluesWithAssignments_spec esW sClues (by decide) (by decide)
      (by decide) (by decide) (by decide)
  exact ⟨(h.2.2.1 0 clA rfl).trans rfl, (h.2.2.2 0 clD1 rfl).trans rfl⟩
